import Mathlib

/-!
# Verification of the ginkgo watch scheduler (`ginkgo/watch/watch_command.go`)

This file gives a shallow embedding of the `SpecWatcher` watch loop:
`WatchSpecs`, `compileAndRun`, `computeSuccinctMode` and `updateSeed`.

External collaborators (`internal.FindSuites`, `DeltaTracker.Delta`,
`internal.CompileSuite`, `internal.RunCompiledSuite`,
`internal.FinalizeProfilesAndReportsForSuites`, the interrupt handler and the
wall clock) are modelled as oracle inputs:

* the result of the initial discovery/Delta pair and of each tick's
  discovery/Delta pair is an input (`InitInput`, `TickInput`);
* compile/run results are an `Oracle` of pure functions keyed by suite;
* the interrupt handler's `WasInterrupted()` readings are an explicit list of
  booleans consumed one per check, and the `select` between the ticker channel
  and the interrupt channel is a `LoopInput` stream;
* `time.Now().Unix()` is the `now` field of the corresponding input;
* the `errors` map returned by `Delta` is modelled as an association list
  (Go map iteration order is unspecified, so any fixed order is a sound model).

The observable behaviour of the loop is a trace of events: the calls the loop
makes to its collaborators, in order.  Side-effecting display of per-suite
Delta errors (`fmt.Printf("Failed to watch ...")`) is an event because one of
the checked claims is about it; purely decorative prints are not modelled.
-/

/-- An `internal.TestSuite`, restricted to the identity fields the watch
command inspects.  Compilation error and pass/fail outcome are produced by the
external compile/run collaborators (the `Oracle`), not stored here. -/
structure TestSuite where
  path : String
  packageName : String
  deriving DecidableEq, Repr

/-- A watch-package suite wrapper (`delta.NewSuites` / `delta.ModifiedSuites()`
elements); the loop only reads its `.Suite` field and its description. -/
structure WatchSuite where
  suite : TestSuite
  description : String
  deriving DecidableEq, Repr

/-- The result of `DeltaTracker.Delta`: new suites, modified package names,
the `ModifiedSuites()` listing, and the per-suite error map rendered as an
association list of (package name, error message). -/
structure Delta where
  newSuites : List WatchSuite
  modifiedPackages : List String
  modifiedSuites : List WatchSuite
  errors : List (String × String)
  deriving DecidableEq, Repr

/-- The mutable watcher configuration the loop touches: `suiteConfig.RandomSeed`
and `reporterConfig.Succinct` are written by `updateSeed` /
`computeSuccinctMode`; `reporterConfig.Verbose` and the two
`flags.WasSet(...)` facts are read-only in this code. -/
structure WatcherState where
  randomSeed : Int
  succinct : Bool
  verbose : Bool
  seedWasSet : Bool
  succinctWasSet : Bool
  deriving DecidableEq, Repr

/-- External compile and run results, keyed by suite: `compileError s` is the
`CompilationError` left by `internal.CompileSuite`, `runPassed s` the `Passed`
field left by `internal.RunCompiledSuite`. -/
structure Oracle where
  compileError : TestSuite → Option String
  runPassed : TestSuite → Bool

/-- One observable step of the watch loop. `run` records the seed and succinct
setting in force when `internal.RunCompiledSuite` is invoked. -/
inductive Event where
  | printError (packageName : String) (msg : String)
  | interruptCheck (b : Bool)
  | willRun (suite : TestSuite)
  | compile (suite : TestSuite) (err : Option String)
  | run (suite : TestSuite) (seed : Int) (succinct : Bool) (passed : Bool)
  | cleanup (suite : TestSuite)
  deriving DecidableEq, Repr

/-- One `WasInterrupted()` call: consume the next reading (no reading left
means the signal was never raised, i.e. `false`). -/
def readInterrupt : List Bool → Bool × List Bool
  | [] => (false, [])
  | b :: rest => (b, rest)

/-- Result of `compileAndRun`: the returned boolean, the emitted events, and
the interrupt readings left unconsumed. -/
structure CarResult where
  passed : Bool
  trace : List Event
  ints : List Bool
  deriving DecidableEq, Repr

/-- `SpecWatcher.compileAndRun`: compile; on compilation error print it and
return false; otherwise check the interrupt signal and return false if set;
otherwise run the compiled suite, clean up, and return its `Passed`. -/
def compileAndRun (o : Oracle) (ints : List Bool) (s : TestSuite)
    (st : WatcherState) : CarResult :=
  match o.compileError s with
  | some e => ⟨false, [.compile s (some e)], ints⟩
  | none =>
    let r := readInterrupt ints
    if r.1 then
      ⟨false, [.compile s none, .interruptCheck true], r.2⟩
    else
      let p := o.runPassed s
      ⟨p, [.compile s none, .interruptCheck false,
           .run s st.randomSeed st.succinct p, .cleanup s], r.2⟩

/-- Outcome of the per-cycle suite iteration: either every suite was attempted
(with the accumulated `passed` conjunction), or an interrupt check fired and
`WatchSpecs` returned. -/
inductive RunOutcome where
  | completed (passed : Bool)
  | interrupted
  deriving DecidableEq, Repr

/-- Result of the per-cycle suite iteration. -/
structure RunResult where
  outcome : RunOutcome
  trace : List Event
  ints : List Bool
  deriving DecidableEq, Repr

/-- The `for _, suite := range suites` body of the Running phase: before each
suite check `WasInterrupted` (returning from `WatchSpecs` if set), then call
`deltaTracker.WillRun(suite)`, then `passed = compileAndRun(suite) && passed`. -/
def runSuites (o : Oracle) (st : WatcherState) :
    List Bool → List TestSuite → Bool → RunResult
  | ints, [], acc => ⟨.completed acc, [], ints⟩
  | ints, s :: rest, acc =>
    let r := readInterrupt ints
    if r.1 then
      ⟨.interrupted, [.interruptCheck true], r.2⟩
    else
      let car := compileAndRun o r.2 s st
      let k := runSuites o st car.ints rest (car.passed && acc)
      ⟨k.outcome, .interruptCheck false :: .willRun s :: (car.trace ++ k.trace),
       k.ints⟩

/-- `SpecWatcher.updateSeed`: refresh `suiteConfig.RandomSeed` to the current
wall-clock time unless the `seed` flag was explicitly set. -/
def updateSeed (now : Int) (st : WatcherState) : WatcherState :=
  if !st.seedWasSet then { st with randomSeed := now } else st

/-- `SpecWatcher.computeSuccinctMode`: verbose forces non-succinct; an explicit
`succinct` flag is left untouched; otherwise one suite chooses non-succinct and
more than one chooses succinct. -/
def computeSuccinctMode (numSuites : Nat) (st : WatcherState) : WatcherState :=
  if st.verbose then { st with succinct := false }
  else if st.succinctWasSet then st
  else if numSuites = 1 then { st with succinct := false }
  else if numSuites > 1 then { st with succinct := true }
  else st

/-- The run list a tick builds: start from the empty list, append the `.Suite`
of every new suite when there are any, then append the `.Suite` of every
modified suite when there are any (mirroring the two guarded loops of the tick
body). -/
def tickRunList (d : Delta) : List TestSuite :=
  let suites : List TestSuite := []
  let suites :=
    if d.newSuites.length > 0 then
      suites ++ d.newSuites.map (fun s => s.suite)
    else suites
  let modifiedSuites := d.modifiedSuites
  if modifiedSuites.length > 0 then
    suites ++ modifiedSuites.map (fun s => s.suite)
  else suites

/-- Oracle data for one firing of the one-second ticker: the `Delta` computed
from the fresh `FindSuites` snapshot, the wall clock read by `updateSeed`, and
the error (if any) returned by `FinalizeProfilesAndReportsForSuites`. -/
structure TickInput where
  delta : Delta
  now : Int
  finalizeError : Option String
  deriving Repr

/-- What the tick body asks the enclosing loop to do next. -/
inductive TickControl where
  | next
  | stop
  | abortFinalize (msg : String)
  deriving DecidableEq, Repr

/-- Result of one tick body execution. -/
structure TickResult where
  control : TickControl
  trace : List Event
  state : WatcherState
  ints : List Bool

/-- The `case <-ticker.C` body: rediscover and classify (oracle `t.delta`),
build the run list; an empty run list breaks out of the `select` (a no-op
tick); otherwise update the seed, compute the succinct mode once, iterate the
suites, and finalize profiles (aborting the command on a finalize error). -/
def processTick (o : Oracle) (ints : List Bool) (t : TickInput)
    (st : WatcherState) : TickResult :=
  let runList := tickRunList t.delta
  if runList.isEmpty then
    ⟨.next, [], st, ints⟩
  else
    let st1 := updateSeed t.now st
    let st2 := computeSuccinctMode runList.length st1
    let r := runSuites o st2 ints runList true
    match r.outcome with
    | .interrupted => ⟨.stop, r.trace, st2, r.ints⟩
    | .completed _ =>
      match t.finalizeError with
      | some m => ⟨.abortFinalize m, r.trace, st2, r.ints⟩
      | none => ⟨.next, r.trace, st2, r.ints⟩

/-- One `select` resolution: either the ticker fired (with its oracle data) or
the interrupt channel delivered. -/
inductive LoopInput where
  | tick (t : TickInput)
  | interrupt

/-- How a (finitely observed) run of `WatchSpecs` ended: still watching when
the observed inputs ran out, returned on interrupt, aborted at startup because
no suites were found, or aborted by a profile-finalization error. -/
inductive Outcome where
  | pending
  | interrupted
  | abortedNoSuites
  | abortedFinalize (msg : String)
  deriving DecidableEq, Repr

/-- Result of the watch loop (and of `watchSpecs`). -/
structure LoopResult where
  outcome : Outcome
  trace : List Event
  state : WatcherState
  ints : List Bool

/-- The `for { select { ... } }` loop of `WatchSpecs`, driven by a finite
prefix of `select` resolutions. -/
def watchLoop (o : Oracle) : List Bool → List LoopInput → WatcherState →
    LoopResult
  | ints, [], st => ⟨.pending, [], st, ints⟩
  | ints, .interrupt :: _, st => ⟨.interrupted, [], st, ints⟩
  | ints, .tick t :: rest, st =>
    let r := processTick o ints t st
    match r.control with
    | .stop => ⟨.interrupted, r.trace, r.state, r.ints⟩
    | .abortFinalize m => ⟨.abortedFinalize m, r.trace, r.state, r.ints⟩
    | .next =>
      let k := watchLoop o r.ints rest r.state
      ⟨k.outcome, r.trace ++ k.trace, k.state, k.ints⟩

/-- Oracle data for the startup phase of `WatchSpecs`: the initial `FindSuites`
result, the initial `deltaTracker.Delta` result, and the wall clock for the
startup `updateSeed` call. -/
structure InitInput where
  suites : List TestSuite
  delta : Delta
  now : Int

/-- Result of the startup phase when it does not abort. -/
structure InitResult where
  trace : List Event
  state : WatcherState
  ints : List Bool

/-- The startup phase of `WatchSpecs`: abort (`none`) when discovery found no
suites; otherwise print every per-suite Delta error, and, when exactly one
suite was discovered, immediately update the seed and compile-and-run it
(discarding the result) before the ticker is created. -/
def initPhase (o : Oracle) (ints : List Bool) (init : InitInput)
    (st : WatcherState) : Option InitResult :=
  match init.suites with
  | [] => none
  | s :: rest =>
    let errEvents := init.delta.errors.map fun p => Event.printError p.1 p.2
    if rest.isEmpty then
      let st1 := updateSeed init.now st
      let car := compileAndRun o ints s st1
      some ⟨errEvents ++ car.trace, st1, car.ints⟩
    else
      some ⟨errEvents, st, ints⟩

/-- `SpecWatcher.WatchSpecs`: the startup phase followed by the ticker loop. -/
def watchSpecs (o : Oracle) (ints : List Bool) (init : InitInput)
    (inputs : List LoopInput) (st : WatcherState) : LoopResult :=
  match initPhase o ints init st with
  | none => ⟨.abortedNoSuites, [], st, ints⟩
  | some r =>
    let k := watchLoop o r.ints inputs r.state
    ⟨k.outcome, r.trace ++ k.trace, k.state, k.ints⟩

/-- The suites marked via `deltaTracker.WillRun`, in trace order. -/
def willRunEvents (tr : List Event) : List TestSuite :=
  tr.filterMap fun e =>
    match e with
    | .willRun s => some s
    | _ => none

/-- Recognizes a `compile` event (a call to `internal.CompileSuite`). -/
def isCompileEvent : Event → Bool
  | .compile _ _ => true
  | _ => false

/-- Recognizes a `printError` event (display of a per-suite Delta error). -/
def isPrintErrorEvent : Event → Bool
  | .printError _ _ => true
  | _ => false

/-! ## Concrete sample data used by witnesses and counterexamples -/

/-- A suite that compiles and passes under `sampleOracle`. -/
def suiteA : TestSuite := ⟨"a", "a"⟩

/-- A second suite that compiles and passes under `sampleOracle`. -/
def suiteB : TestSuite := ⟨"b", "b"⟩

/-- A suite whose external compile step fails under `sampleOracle`. -/
def suiteBad : TestSuite := ⟨"bad", "bad"⟩

/-- Sample compile/run results: every suite passes except `suiteBad`, whose
compilation fails. -/
def sampleOracle : Oracle :=
  ⟨fun s => if s.path = "bad" then some "compile failed" else none,
   fun _ => true⟩

/-- Sample watcher configuration: seed 0, nothing explicitly set. -/
def sampleState : WatcherState := ⟨0, false, false, false, false⟩

/-- A Delta with nothing new, nothing modified and no errors. -/
def emptyDelta : Delta := ⟨[], [], [], []⟩

/-- A tick whose Delta reports one modified suite and one per-suite error. -/
def errTick : TickInput := ⟨⟨[], ["a"], [⟨suiteA, "A"⟩], [("a", "graph error")]⟩, 3, none⟩

/-- A tick whose Delta reports one new suite and one modified suite. -/
def fullTick : TickInput := ⟨⟨[⟨suiteA, "A"⟩], ["pb"], [⟨suiteB, "B"⟩], []⟩, 5, none⟩

/-! ## Helper lemmas -/

/-- `computeSuccinctMode` only writes the succinct field; the random seed is
untouched. -/
theorem computeSuccinctMode_randomSeed (n : Nat) (st : WatcherState) :
    (computeSuccinctMode n st).randomSeed = st.randomSeed := by
  unfold computeSuccinctMode
  repeat' split
  all_goals rfl

/-- Every `run` event emitted by `compileAndRun` carries the seed and succinct
setting of the state it was given. -/
theorem run_event_compileAndRun (o : Oracle) (ints : List Bool) (s : TestSuite)
    (st : WatcherState) (s2 : TestSuite) (sd : Int) (suc p : Bool)
    (h : Event.run s2 sd suc p ∈ (compileAndRun o ints s st).trace) :
    sd = st.randomSeed ∧ suc = st.succinct := by
  rcases hc : o.compileError s with _ | e
  · by_cases hb : (readInterrupt ints).1 <;> simp [compileAndRun, hc, hb] at h
    exact ⟨h.2.1, h.2.2.1⟩
  · simp [compileAndRun, hc] at h

/-- Every `run` event emitted by the per-cycle suite iteration carries the
seed and succinct setting of the state the iteration was given. -/
theorem run_event_runSuites (o : Oracle) (st : WatcherState) :
    ∀ (l : List TestSuite) (ints : List Bool) (acc : Bool) (s : TestSuite)
      (sd : Int) (suc p : Bool),
    Event.run s sd suc p ∈ (runSuites o st ints l acc).trace →
    sd = st.randomSeed ∧ suc = st.succinct := by
  intro l
  induction l with
  | nil => intro ints acc s sd suc p h; simp [runSuites] at h
  | cons a t ih =>
    intro ints acc s sd suc p h
    by_cases hb : (readInterrupt ints).1 <;> simp [runSuites, hb] at h
    rcases h with h | h
    · exact run_event_compileAndRun o _ a st s sd suc p h
    · exact ih _ _ s sd suc p h

/-- Every `run` event of a tick carries the seed decided by the cycle's single
`updateSeed` call and the succinct mode decided by the cycle's single
`computeSuccinctMode` call. -/
theorem run_event_processTick (o : Oracle) (ints : List Bool) (t : TickInput)
    (st : WatcherState) (s : TestSuite) (sd : Int) (suc p : Bool)
    (h : Event.run s sd suc p ∈ (processTick o ints t st).trace) :
    sd = (updateSeed t.now st).randomSeed ∧
    suc = (computeSuccinctMode (tickRunList t.delta).length
            (updateSeed t.now st)).succinct := by
  unfold processTick at h
  by_cases he : (tickRunList t.delta).isEmpty
  · simp [he] at h
  · simp only [he, if_false] at h
    have hm : Event.run s sd suc p ∈
        (runSuites o (computeSuccinctMode (tickRunList t.delta).length
          (updateSeed t.now st)) ints (tickRunList t.delta) true).trace := by
      rcases ho : (runSuites o (computeSuccinctMode (tickRunList t.delta).length
          (updateSeed t.now st)) ints (tickRunList t.delta) true).outcome with _ | _ <;>
        simp [ho] at h <;>
        first
          | exact h
          | (rcases hf : t.finalizeError with _ | m <;> simp [hf] at h <;> exact h)
    have := run_event_runSuites o _ (tickRunList t.delta) ints true s sd suc p hm
    rw [computeSuccinctMode_randomSeed] at this
    exact this

/-! ## C6 — the per-cycle seed decision -/

/-- Claim C6 as stated is false on the code: with the `seed` flag not
explicitly set, `updateSeed` REPLACES the prior random seed (5) with the
current wall-clock time (7) — the prior seed is not reused when the caller did
not pin one. -/
theorem c6_counterexample :
    (⟨5, false, false, false, false⟩ : WatcherState).seedWasSet = false ∧
    ¬(updateSeed 7 ⟨5, false, false, false, false⟩).randomSeed = 5 := by
  decide

/-- Claim C6 (amended): before running any suite, the seed decision is made
exactly once per cycle: the prior seed is reused only when the caller
explicitly pinned one, otherwise it is refreshed to the current wall-clock
time; every suite run in the cycle sees that single decided seed (the seed is
not recomputed per suite). -/
theorem c6_seed_decided_once_per_cycle (now : Int) (st : WatcherState) :
    (st.seedWasSet = true → updateSeed now st = st) ∧
    (st.seedWasSet = false → (updateSeed now st).randomSeed = now) ∧
    (∀ (o : Oracle) (ints : List Bool) (t : TickInput) (s : TestSuite)
       (sd : Int) (suc pp : Bool),
       Event.run s sd suc pp ∈ (processTick o ints t st).trace →
       sd = (updateSeed t.now st).randomSeed) := by
  refine ⟨fun h => ?_, fun h => ?_, fun o ints t s sd suc pp h => ?_⟩
  · simp [updateSeed, h]
  · simp [updateSeed, h]
  · exact (run_event_processTick o ints t st s sd suc pp h).1

/-- Witness for the amended C6 at concrete inputs: a pinned seed is reused, an
unpinned one is refreshed, and a concrete cycle's run event carries the
cycle's decided seed. -/
theorem c6_witness :
    updateSeed 7 ⟨5, false, false, true, false⟩ = ⟨5, false, false, true, false⟩ ∧
    (updateSeed 7 ⟨5, false, false, false, false⟩).randomSeed = 7 ∧
    (5 : Int) = (updateSeed fullTick.now ⟨5, false, false, true, false⟩).randomSeed :=
  ⟨(c6_seed_decided_once_per_cycle 7 ⟨5, false, false, true, false⟩).1 rfl,
   (c6_seed_decided_once_per_cycle 7 ⟨5, false, false, false, false⟩).2.1 rfl,
   (c6_seed_decided_once_per_cycle 7 ⟨5, false, false, true, false⟩).2.2
     sampleOracle [] fullTick suiteA 5 true true (by decide)⟩

/-! ## C7 — the per-cycle display-mode decision -/

/-- Claim C7: the display-mode decision is made once per cycle before any
suite runs: one affected suite chooses non-succinct, more than one chooses
succinct, unless the caller explicitly chose verbose (succinct forced off) or
explicitly set the succinct flag (left untouched); every suite run in the
cycle sees the single decided succinct mode. -/
theorem c7_succinct_decided_once_per_cycle (n : Nat) (st : WatcherState) :
    (st.verbose = true → (computeSuccinctMode n st).succinct = false) ∧
    (st.verbose = false → st.succinctWasSet = true → computeSuccinctMode n st = st) ∧
    (st.verbose = false → st.succinctWasSet = false →
      (computeSuccinctMode 1 st).succinct = false) ∧
    (st.verbose = false → st.succinctWasSet = false → n > 1 →
      (computeSuccinctMode n st).succinct = true) ∧
    (∀ (o : Oracle) (ints : List Bool) (t : TickInput) (s : TestSuite)
       (sd : Int) (suc pp : Bool),
       Event.run s sd suc pp ∈ (processTick o ints t st).trace →
       suc = (computeSuccinctMode (tickRunList t.delta).length
               (updateSeed t.now st)).succinct) := by
  refine ⟨fun hv => ?_, fun hv hs => ?_, fun hv hs => ?_, fun hv hs hn => ?_,
    fun o ints t s sd suc pp h => ?_⟩
  · simp [computeSuccinctMode, hv]
  · simp [computeSuccinctMode, hv, hs]
  · simp [computeSuccinctMode, hv, hs]
  · have hne : ¬(n = 1) := by omega
    simp [computeSuccinctMode, hv, hs, hne, hn]
  · exact (run_event_processTick o ints t st s sd suc pp h).2

/-- Witness for C7 at concrete inputs: verbose wins, an explicit succinct flag
is untouched, one suite is non-succinct, two suites are succinct, and a
concrete cycle's run event carries the cycle's decided succinct mode. -/
theorem c7_witness :
    (computeSuccinctMode 2 ⟨0, false, true, false, false⟩).succinct = false ∧
    computeSuccinctMode 2 ⟨0, true, false, false, true⟩ =
      ⟨0, true, false, false, true⟩ ∧
    (computeSuccinctMode 1 sampleState).succinct = false ∧
    (computeSuccinctMode 2 sampleState).succinct = true ∧
    true = (computeSuccinctMode (tickRunList fullTick.delta).length
             (updateSeed fullTick.now sampleState)).succinct :=
  ⟨(c7_succinct_decided_once_per_cycle 2 ⟨0, false, true, false, false⟩).1 rfl,
   (c7_succinct_decided_once_per_cycle 2 ⟨0, true, false, false, true⟩).2.1 rfl rfl,
   (c7_succinct_decided_once_per_cycle 1 sampleState).2.2.1 rfl rfl,
   (c7_succinct_decided_once_per_cycle 2 sampleState).2.2.2.1 rfl rfl (by decide),
   (c7_succinct_decided_once_per_cycle 2 sampleState).2.2.2.2 sampleOracle []
     fullTick suiteA 5 true true (by decide)⟩

/-! ## C10 — interrupt observed between compile and run -/

/-- Claim C10: inside `compileAndRun`, when compilation succeeds but the
interrupt signal is observed before the run starts, the call returns `false`
with only the compile and interrupt-check events — the compiled suite's tests
are never executed (no `run` event exists in the trace). -/
theorem c10_interrupt_between_compile_and_run (o : Oracle) (ints ints1 : List Bool)
    (s : TestSuite) (st : WatcherState)
    (hc : o.compileError s = none)
    (hi : readInterrupt ints = (true, ints1)) :
    compileAndRun o ints s st =
      ⟨false, [.compile s none, .interruptCheck true], ints1⟩ ∧
    ∀ (s2 : TestSuite) (sd : Int) (suc pp : Bool),
      Event.run s2 sd suc pp ∉ (compileAndRun o ints s st).trace := by
  have he : compileAndRun o ints s st =
      ⟨false, [.compile s none, .interruptCheck true], ints1⟩ := by
    simp [compileAndRun, hc, hi]
  refine ⟨he, fun s2 sd suc pp => ?_⟩
  rw [he]
  simp

/-- Witness for C10 at concrete inputs. -/
theorem c10_witness :
    compileAndRun sampleOracle [true] suiteA sampleState =
      ⟨false, [.compile suiteA none, .interruptCheck true], []⟩ ∧
    Event.run suiteA 0 false true ∉
      (compileAndRun sampleOracle [true] suiteA sampleState).trace :=
  ⟨(c10_interrupt_between_compile_and_run sampleOracle [true] [] suiteA
      sampleState (by decide) (by decide)).1,
   (c10_interrupt_between_compile_and_run sampleOracle [true] [] suiteA
      sampleState (by decide) (by decide)).2 suiteA 0 false true⟩

/-- Unfolding equation: iterating the empty run list. -/
theorem runSuites_nil (o : Oracle) (st : WatcherState) (ints : List Bool)
    (acc : Bool) : runSuites o st ints [] acc = ⟨.completed acc, [], ints⟩ := rfl

/-- Unfolding equation: the pre-suite interrupt check fired. -/
theorem runSuites_cons_stop (o : Oracle) (st : WatcherState) (ints : List Bool)
    (a : TestSuite) (rest : List TestSuite) (acc : Bool)
    (hb : (readInterrupt ints).1 = true) :
    runSuites o st ints (a :: rest) acc =
      ⟨.interrupted, [.interruptCheck true], (readInterrupt ints).2⟩ := by
  simp [runSuites, hb]

/-- Unfolding equation: the pre-suite interrupt check passed, so the suite is
marked via `WillRun`, compiled and run, and the iteration continues. -/
theorem runSuites_cons_go (o : Oracle) (st : WatcherState) (ints : List Bool)
    (a : TestSuite) (rest : List TestSuite) (acc : Bool)
    (hb : (readInterrupt ints).1 = false) :
    runSuites o st ints (a :: rest) acc =
      ⟨(runSuites o st (compileAndRun o (readInterrupt ints).2 a st).ints rest
          ((compileAndRun o (readInterrupt ints).2 a st).passed && acc)).outcome,
       .interruptCheck false :: .willRun a ::
         ((compileAndRun o (readInterrupt ints).2 a st).trace ++
          (runSuites o st (compileAndRun o (readInterrupt ints).2 a st).ints rest
            ((compileAndRun o (readInterrupt ints).2 a st).passed && acc)).trace),
       (runSuites o st (compileAndRun o (readInterrupt ints).2 a st).ints rest
         ((compileAndRun o (readInterrupt ints).2 a st).passed && acc)).ints⟩ := by
  simp [runSuites, hb]

/-- Splitting the per-cycle iteration: when the iteration over a prefix `l1`
completes without interruption, iterating `l1 ++ l2` first produces exactly
`l1`'s events and then continues with `l2` from the leftover interrupt
readings and the accumulated `passed` value. -/
theorem runSuites_append_completed (o : Oracle) (st : WatcherState)
    (l2 : List TestSuite) :
    ∀ (l1 : List TestSuite) (ints : List Bool) (acc p : Bool),
    (runSuites o st ints l1 acc).outcome = .completed p →
    runSuites o st ints (l1 ++ l2) acc =
      ⟨(runSuites o st (runSuites o st ints l1 acc).ints l2 p).outcome,
       (runSuites o st ints l1 acc).trace ++
         (runSuites o st (runSuites o st ints l1 acc).ints l2 p).trace,
       (runSuites o st (runSuites o st ints l1 acc).ints l2 p).ints⟩ := by
  intro l1
  induction l1 with
  | nil =>
    intro ints acc p h
    simp [runSuites] at h
    subst h
    simp [runSuites]
  | cons a t ih =>
    intro ints acc p h
    by_cases hb : (readInterrupt ints).1
    · rw [runSuites_cons_stop o st ints a t acc hb] at h
      simp at h
    · have hb' : (readInterrupt ints).1 = false := by simpa using hb
      rw [runSuites_cons_go o st ints a t acc hb'] at h
      simp only [] at h
      rw [List.cons_append, runSuites_cons_go o st ints a (t ++ l2) acc hb',
          runSuites_cons_go o st ints a t acc hb']
      rw [ih _ _ p h]
      simp

/-! ## C1 — ordering of `WillRun` (mark-as-observed) around compile-and-run -/

/-- Claim C1 as stated is false on the code: on a concrete one-suite cycle the
tracker's mark-as-observed call (`deltaTracker.WillRun`) appears in the trace
STRICTLY BEFORE the suite's compile event, not after the suite's
compile-and-run has completed. -/
theorem c1_counterexample :
    (runSuites sampleOracle sampleState [] [suiteA] true).trace =
      [.interruptCheck false, .willRun suiteA, .compile suiteA none,
       .interruptCheck false, .run suiteA 0 false true, .cleanup suiteA] ∧
    (runSuites sampleOracle sampleState [] [suiteA] true).trace.indexOf
        (.willRun suiteA) <
      (runSuites sampleOracle sampleState [] [suiteA] true).trace.indexOf
        (.compile suiteA none) := by
  decide

/-- Claim C1 (amended): in the Running phase, for every suite in the cycle's
run list, the tracker's mark-as-observed call (`WillRun`) is invoked
immediately BEFORE that suite's compile-and-run starts, and only after that
suite's compile-and-run has completed (pass or fail) is the next suite
attempted: after an uninterrupted prefix `l1`, the events are exactly `l1`'s
block, then the interrupt check, then `WillRun s`, then `s`'s compile-and-run
events, and only then the events of the remaining suites `l2`. -/
theorem c1_mark_observed_before_compile_and_run (o : Oracle) (st : WatcherState)
    (l1 l2 : List TestSuite) (s : TestSuite) (ints rest2 : List Bool)
    (acc p : Bool)
    (h : (runSuites o st ints l1 acc).outcome = .completed p)
    (hi : readInterrupt (runSuites o st ints l1 acc).ints = (false, rest2)) :
    runSuites o st ints (l1 ++ s :: l2) acc =
      ⟨(runSuites o st (compileAndRun o rest2 s st).ints l2
          ((compileAndRun o rest2 s st).passed && p)).outcome,
       (runSuites o st ints l1 acc).trace ++
         .interruptCheck false :: .willRun s ::
           ((compileAndRun o rest2 s st).trace ++
            (runSuites o st (compileAndRun o rest2 s st).ints l2
              ((compileAndRun o rest2 s st).passed && p)).trace),
       (runSuites o st (compileAndRun o rest2 s st).ints l2
         ((compileAndRun o rest2 s st).passed && p)).ints⟩ := by
  rw [runSuites_append_completed o st (s :: l2) l1 ints acc p h]
  rw [runSuites_cons_go o st _ s l2 p (by rw [hi])]
  rw [hi]

/-- Witness for the amended C1 at concrete inputs: one already-completed suite
`suiteA`, then `suiteB` with `suiteBad` still pending. -/
theorem c1_witness :
    runSuites sampleOracle sampleState [] ([suiteA] ++ suiteB :: [suiteBad]) true =
      ⟨(runSuites sampleOracle sampleState
          (compileAndRun sampleOracle [] suiteB sampleState).ints [suiteBad]
          ((compileAndRun sampleOracle [] suiteB sampleState).passed && true)).outcome,
       (runSuites sampleOracle sampleState [] [suiteA] true).trace ++
         .interruptCheck false :: .willRun suiteB ::
           ((compileAndRun sampleOracle [] suiteB sampleState).trace ++
            (runSuites sampleOracle sampleState
              (compileAndRun sampleOracle [] suiteB sampleState).ints [suiteBad]
              ((compileAndRun sampleOracle [] suiteB sampleState).passed && true)).trace),
       (runSuites sampleOracle sampleState
         (compileAndRun sampleOracle [] suiteB sampleState).ints [suiteBad]
         ((compileAndRun sampleOracle [] suiteB sampleState).passed && true)).ints⟩ :=
  c1_mark_observed_before_compile_and_run sampleOracle sampleState [suiteA]
    [suiteBad] suiteB [] [] true true (by decide) (by decide)

/-! ## C2 — the pre-suite interrupt check stops the cycle -/

/-- Claim C2: for every cycle and every position in the run list, if the
interrupt signal is set when checked immediately before a suite, the loop
exits (outcome `interrupted`, which returns from `WatchSpecs`) without
starting that suite or any subsequent suite — the trace ends at the interrupt
check, containing no event for `s` or `l2` — and the events of the
already-started prefix `l1` are preserved unchanged (not rolled back). -/
theorem c2_interrupt_check_stops_cycle (o : Oracle) (st : WatcherState)
    (l1 l2 : List TestSuite) (s : TestSuite) (ints rest2 : List Bool)
    (acc p : Bool)
    (h : (runSuites o st ints l1 acc).outcome = .completed p)
    (hi : readInterrupt (runSuites o st ints l1 acc).ints = (true, rest2)) :
    runSuites o st ints (l1 ++ s :: l2) acc =
      ⟨.interrupted,
       (runSuites o st ints l1 acc).trace ++ [.interruptCheck true], rest2⟩ := by
  rw [runSuites_append_completed o st (s :: l2) l1 ints acc p h]
  rw [runSuites_cons_stop o st _ s l2 p (by rw [hi])]
  rw [hi]

/-- Witness for C2 at concrete inputs: `suiteA` completes, then the interrupt
reading observed before `suiteB` is `true` and the cycle stops. -/
theorem c2_witness :
    runSuites sampleOracle sampleState [false, false, true]
        ([suiteA] ++ suiteB :: [suiteBad]) true =
      ⟨.interrupted,
       (runSuites sampleOracle sampleState [false, false, true] [suiteA] true).trace ++
         [.interruptCheck true], []⟩ :=
  c2_interrupt_check_stops_cycle sampleOracle sampleState [suiteA] [suiteBad]
    suiteB [false, false, true] [] true true (by decide) (by decide)

/-! ## C8 — a compile failure marks the suite failed and the cycle goes on -/

/-- Once the accumulated `passed` flag is false it stays false: a cycle that
completes after any suite failed reports `passed = false`. -/
theorem runSuites_acc_false (o : Oracle) (st : WatcherState) :
    ∀ (l : List TestSuite) (ints : List Bool) (b : Bool),
    (runSuites o st ints l false).outcome = .completed b → b = false := by
  intro l
  induction l with
  | nil => intro ints b h; simp [runSuites] at h; exact h
  | cons a t ih =>
    intro ints b h
    by_cases hb : (readInterrupt ints).1
    · rw [runSuites_cons_stop o st ints a t false hb] at h
      simp at h
    · have hb' : (readInterrupt ints).1 = false := by simpa using hb
      rw [runSuites_cons_go o st ints a t false hb'] at h
      simp only [Bool.and_false] at h
      exact ih _ b h

/-- Claim C8: when a suite's external compile step fails, `compileAndRun`
contributes `false` (the suite is reported failed, never passed), the cycle's
iteration continues with the next suites of the run list, and a cycle that
then completes reports `passed = false`. -/
theorem c8_compile_error_fails_suite_and_continues (o : Oracle)
    (st : WatcherState) (s : TestSuite) (rest : List TestSuite)
    (ints ints1 : List Bool) (acc : Bool) (msg : String)
    (hc : o.compileError s = some msg)
    (hi : readInterrupt ints = (false, ints1)) :
    runSuites o st ints (s :: rest) acc =
      ⟨(runSuites o st ints1 rest false).outcome,
       [.interruptCheck false, .willRun s, .compile s (some msg)] ++
         (runSuites o st ints1 rest false).trace,
       (runSuites o st ints1 rest false).ints⟩ ∧
    (∀ b : Bool,
      (runSuites o st ints1 rest false).outcome = .completed b → b = false) := by
  constructor
  · rw [runSuites_cons_go o st ints s rest acc (by rw [hi])]
    rw [hi]
    simp [compileAndRun, hc]
  · exact fun b => runSuites_acc_false o st rest ints1 b

/-- Witness for C8 at concrete inputs: `suiteBad` fails to compile and the
cycle proceeds to `suiteA`, ending with `passed = false`. -/
theorem c8_witness :
    runSuites sampleOracle sampleState [] (suiteBad :: [suiteA]) true =
      ⟨(runSuites sampleOracle sampleState [] [suiteA] false).outcome,
       [.interruptCheck false, .willRun suiteBad,
        .compile suiteBad (some "compile failed")] ++
         (runSuites sampleOracle sampleState [] [suiteA] false).trace,
       (runSuites sampleOracle sampleState [] [suiteA] false).ints⟩ ∧
    false = false :=
  ⟨(c8_compile_error_fails_suite_and_continues sampleOracle sampleState suiteBad
      [suiteA] [] [] true "compile failed" (by decide) (by decide)).1,
   (c8_compile_error_fails_suite_and_continues sampleOracle sampleState suiteBad
      [suiteA] [] [] true "compile failed" (by decide) (by decide)).2 false
     (by decide)⟩

/-! ## C5 — run-list ordering: new suites then modified suites -/

/-- The tick's run list is the new suites followed by the modified suites,
each group in the order the Delta returned it. -/
theorem tickRunList_eq (d : Delta) :
    tickRunList d =
      d.newSuites.map (fun s => s.suite) ++
        d.modifiedSuites.map (fun s => s.suite) := by
  cases hn : d.newSuites <;> cases hm : d.modifiedSuites <;>
    simp [tickRunList, hn, hm]

/-- `compileAndRun` never emits a `WillRun` mark. -/
theorem willRunEvents_compileAndRun (o : Oracle) (ints : List Bool)
    (s : TestSuite) (st : WatcherState) :
    willRunEvents (compileAndRun o ints s st).trace = [] := by
  rcases hc : o.compileError s with _ | e
  · by_cases hb : (readInterrupt ints).1 <;>
      simp [compileAndRun, hc, hb, willRunEvents]
  · simp [compileAndRun, hc, willRunEvents]

/-- A `WillRun` mark at the head of the trace heads the extracted list. -/
theorem willRunEvents_cons_willRun (s : TestSuite) (tr : List Event) :
    willRunEvents (.willRun s :: tr) = s :: willRunEvents tr := rfl

/-- An interrupt-check event contributes no `WillRun` mark. -/
theorem willRunEvents_cons_check (b : Bool) (tr : List Event) :
    willRunEvents (.interruptCheck b :: tr) = willRunEvents tr := rfl

/-- Extracting `WillRun` marks distributes over trace concatenation. -/
theorem willRunEvents_append (t1 t2 : List Event) :
    willRunEvents (t1 ++ t2) = willRunEvents t1 ++ willRunEvents t2 := by
  simp [willRunEvents]

/-- When a cycle completes without interruption, the suites marked via
`WillRun`, in trace order, are exactly the run list. -/
theorem willRunEvents_runSuites (o : Oracle) (st : WatcherState) :
    ∀ (l : List TestSuite) (ints : List Bool) (acc p : Bool),
    (runSuites o st ints l acc).outcome = .completed p →
    willRunEvents (runSuites o st ints l acc).trace = l := by
  intro l
  induction l with
  | nil => intro ints acc p h; simp [runSuites, willRunEvents]
  | cons a t ih =>
    intro ints acc p h
    by_cases hb : (readInterrupt ints).1
    · rw [runSuites_cons_stop o st ints a t acc hb] at h
      simp at h
    · have hb' : (readInterrupt ints).1 = false := by simpa using hb
      rw [runSuites_cons_go o st ints a t acc hb'] at h
      simp only [] at h
      simp only [runSuites_cons_go o st ints a t acc hb']
      rw [willRunEvents_cons_check, willRunEvents_cons_willRun,
        willRunEvents_append, willRunEvents_compileAndRun, ih _ _ p h]
      rfl

/-- Claim C5: for every tick that is not cut short by an interrupt, the run
list executed by the scheduler (the suites marked `WillRun`, in execution
order) is exactly the tick's run list, and that run list is the new suites
followed by the modified suites, each group in the order discovery (the
Delta) returned it. -/
theorem c5_run_list_order (o : Oracle) (ints : List Bool) (t : TickInput)
    (st : WatcherState)
    (h : (processTick o ints t st).control ≠ .stop) :
    willRunEvents (processTick o ints t st).trace = tickRunList t.delta ∧
    tickRunList t.delta =
      t.delta.newSuites.map (fun s => s.suite) ++
        t.delta.modifiedSuites.map (fun s => s.suite) := by
  refine ⟨?_, tickRunList_eq t.delta⟩
  by_cases he : (tickRunList t.delta).isEmpty
  · have hnil : tickRunList t.delta = [] := by simpa using he
    simp [processTick, he, hnil, willRunEvents]
  · cases ho : (runSuites o (computeSuccinctMode (tickRunList t.delta).length
        (updateSeed t.now st)) ints (tickRunList t.delta) true).outcome with
    | completed p =>
      have htr : (processTick o ints t st).trace =
          (runSuites o (computeSuccinctMode (tickRunList t.delta).length
            (updateSeed t.now st)) ints (tickRunList t.delta) true).trace := by
        rcases hf : t.finalizeError with _ | m <;>
          simp [processTick, he, ho, hf]
      rw [htr]
      exact willRunEvents_runSuites o _ _ ints true p ho
    | interrupted =>
      exact absurd (by simp [processTick, he, ho]) h

/-- Witness for C5 at concrete inputs: a tick with one new suite and one
modified suite. -/
theorem c5_witness :
    willRunEvents (processTick sampleOracle [] fullTick sampleState).trace =
      tickRunList fullTick.delta ∧
    tickRunList fullTick.delta =
      fullTick.delta.newSuites.map (fun s => s.suite) ++
        fullTick.delta.modifiedSuites.map (fun s => s.suite) :=
  c5_run_list_order sampleOracle [] fullTick sampleState (by decide)

/-! ## C3 — zero suites: fatal at startup, a no-op on later ticks -/

/-- Claim C3: if the very first discovery returns zero suites, `WatchSpecs`
aborts with the terminal no-suites failure before entering the loop; on a
later tick, an empty delta (empty run list) is a no-op: the loop behaves
exactly as if that tick had not happened and continues. -/
theorem c3_startup_fatal_tick_noop :
    (∀ (o : Oracle) (ints : List Bool) (init : InitInput)
       (inputs : List LoopInput) (st : WatcherState),
       init.suites = [] →
       watchSpecs o ints init inputs st = ⟨.abortedNoSuites, [], st, ints⟩) ∧
    (∀ (o : Oracle) (ints : List Bool) (t : TickInput) (rest : List LoopInput)
       (st : WatcherState),
       tickRunList t.delta = [] →
       watchLoop o ints (.tick t :: rest) st = watchLoop o ints rest st) := by
  constructor
  · intro o ints init inputs st h
    simp [watchSpecs, initPhase, h]
  · intro o ints t rest st h
    simp [watchLoop, processTick, h]

/-- Witness for C3 at concrete inputs. -/
theorem c3_witness :
    watchSpecs sampleOracle [] ⟨[], emptyDelta, 0⟩ [] sampleState =
      ⟨.abortedNoSuites, [], sampleState, []⟩ ∧
    watchLoop sampleOracle [] [.tick ⟨emptyDelta, 0, none⟩] sampleState =
      watchLoop sampleOracle [] [] sampleState :=
  ⟨c3_startup_fatal_tick_noop.1 sampleOracle [] ⟨[], emptyDelta, 0⟩ []
      sampleState rfl,
   c3_startup_fatal_tick_noop.2 sampleOracle [] ⟨emptyDelta, 0, none⟩ []
      sampleState rfl⟩

/-! ## C4 — per-suite Delta errors: displayed at startup, discarded on ticks -/

/-- Claim C4 as stated is false on the code: on a tick (here a tick whose
Delta reports one modified suite together with one per-suite error) the error
map returned by `Delta` is discarded — the tick's trace contains no
error-display event at all. -/
theorem c4_counterexample :
    errTick.delta.errors ≠ [] ∧
    (processTick sampleOracle [] errTick sampleState).trace.countP
      isPrintErrorEvent = 0 := by
  decide

/-- Claim C4 (amended): per-suite graph/discovery errors returned by `Delta`
are surfaced for display on the initial pass only (each error is printed);
on subsequent ticks they are silently discarded (a tick's behaviour is
entirely independent of the error map); in neither case do they escalate to
a loop-level failure: startup aborts only on zero suites, and the tick
proceeds identically whatever the errors. -/
theorem c4_errors_initial_display_only (o : Oracle) :
    (∀ (ints : List Bool) (init : InitInput) (st : WatcherState)
       (r : InitResult),
       initPhase o ints init st = some r →
       ∀ pr ∈ init.delta.errors, Event.printError pr.1 pr.2 ∈ r.trace) ∧
    (∀ (ints : List Bool) (t : TickInput) (errs : List (String × String))
       (st : WatcherState),
       processTick o ints
         ⟨⟨t.delta.newSuites, t.delta.modifiedPackages, t.delta.modifiedSuites,
           errs⟩, t.now, t.finalizeError⟩ st = processTick o ints t st) := by
  constructor
  · intro ints init st r h pr hpr
    rcases hs : init.suites with _ | ⟨s, rest⟩
    · simp [initPhase, hs] at h
    · by_cases he : rest.isEmpty
      · simp [initPhase, hs, he] at h
        rw [← h]
        exact List.mem_append_left _ (List.mem_map_of_mem _ hpr)
      · simp [initPhase, hs, he] at h
        rw [← h]
        exact List.mem_map_of_mem _ hpr
  · intro ints t errs st
    rfl

/-- Witness for the amended C4 at concrete inputs: the startup trace contains
the printed error, and a tick's result is unchanged when its Delta errors are
dropped. -/
theorem c4_witness :
    Event.printError "a" "graph error" ∈
      (⟨[.printError "a" "graph error", .compile suiteA none,
         .interruptCheck false, .run suiteA 0 false true, .cleanup suiteA],
        ⟨0, false, false, false, false⟩, []⟩ : InitResult).trace ∧
    processTick sampleOracle []
        ⟨⟨errTick.delta.newSuites, errTick.delta.modifiedPackages,
          errTick.delta.modifiedSuites, []⟩, errTick.now,
         errTick.finalizeError⟩ sampleState =
      processTick sampleOracle [] errTick sampleState :=
  ⟨(c4_errors_initial_display_only sampleOracle).1 []
      ⟨[suiteA], errTick.delta, 0⟩ sampleState _ rfl ("a", "graph error")
      (by decide),
   (c4_errors_initial_display_only sampleOracle).2 [] errTick [] sampleState⟩

/-! ## C9 — immediate startup run iff exactly one suite -/

/-- `compileAndRun` performs exactly one compile step. -/
theorem countP_compile_compileAndRun (o : Oracle) (ints : List Bool)
    (s : TestSuite) (st : WatcherState) :
    (compileAndRun o ints s st).trace.countP isCompileEvent = 1 := by
  rcases hc : o.compileError s with _ | e
  · by_cases hb : (readInterrupt ints).1 <;>
      simp [compileAndRun, hc, hb, isCompileEvent, List.countP_cons]
  · simp [compileAndRun, hc, isCompileEvent, List.countP_cons]

/-- Error-display events contain no compile step. -/
theorem countP_compile_printErrors (l : List (String × String)) :
    (l.map fun p => Event.printError p.1 p.2).countP isCompileEvent = 0 := by
  induction l with
  | nil => rfl
  | cons a t ih => simp [List.countP_cons, isCompileEvent, ih]

/-- Claim C9: when the startup phase does not abort, it performs an immediate
compile-and-run (exactly one compile step, before the ticker loop starts) if
and only if exactly one suite was discovered; with two or more suites the
startup trace contains no compile step, so no suite runs before the first
tick. -/
theorem c9_startup_run_iff_single_suite (o : Oracle) (ints : List Bool)
    (init : InitInput) (st : WatcherState) (r : InitResult)
    (h : initPhase o ints init st = some r) :
    r.trace.countP isCompileEvent =
      if init.suites.length = 1 then 1 else 0 := by
  rcases hs : init.suites with _ | ⟨s, rest⟩
  · simp [initPhase, hs] at h
  · rcases rest with _ | ⟨s2, rest2⟩
    · simp [initPhase, hs] at h
      rw [← h]
      simp [List.countP_append, countP_compile_printErrors,
        countP_compile_compileAndRun]
      exact fun a b _ => rfl
    · simp [initPhase, hs] at h
      rw [← h]
      simp [countP_compile_printErrors]
      exact fun a b _ => rfl

/-- Witness for C9 at concrete inputs: one discovered suite, one compile step
before the loop. -/
theorem c9_witness :
    (⟨[.compile suiteA none, .interruptCheck false, .run suiteA 7 false true,
       .cleanup suiteA], ⟨7, false, false, false, false⟩, []⟩ :
        InitResult).trace.countP isCompileEvent =
      if (⟨[suiteA], emptyDelta, 7⟩ : InitInput).suites.length = 1 then 1
      else 0 :=
  c9_startup_run_iff_single_suite sampleOracle [] ⟨[suiteA], emptyDelta, 7⟩
    sampleState _ rfl
